import Mathlib

set_option maxRecDepth 16384

/-!
Verification of the template-extraction subsystem of `template_utils.py`.

The Python module is shallowly embedded: strings are Lean `String`
(lists of characters), Python `None`/exceptions are explicit `Option`
and `Except` values, and the two pieces of library behaviour the module
relies on are modelled as executable Lean functions:

* the `re` module, restricted to the exact patterns the source builds
  (case-insensitive, DOTALL, with lazy `(.*?)` captures and optional
  groups), as a small backtracking matcher over a pattern AST;
* `xml.etree.ElementTree.fromstring` with `findall`/`findtext`/`.text`,
  restricted to the tag-and-text fragment of XML the templates use
  (no entities, comments or processing instructions; attributes are
  scanned over and discarded; mismatched or unterminated tags and junk
  after the root element are parse errors, as in ElementTree).

All functions are fuel-based structural recursions, so concrete inputs
evaluate inside the kernel.  ASCII case folding is used, matching the
tag vocabulary of the source.
-/

/-! ## Python character and string primitives -/

/-- Python `\s` and `str.strip` whitespace, ASCII range. -/
def pyIsSpace (c : Char) : Bool :=
  c = ' ' || c = Char.ofNat 9 || c = Char.ofNat 10 || c = Char.ofNat 13 ||
  c = Char.ofNat 11 || c = Char.ofNat 12

/-- Python `str.lower` on a character list (ASCII case folding). -/
def lowerL (cs : List Char) : List Char := cs.map Char.toLower

/-- Substring test on character lists: Python `needle in hay`. -/
def containsSub (hay needle : List Char) : Bool :=
  match hay with
  | [] => needle.isPrefixOf ([] : List Char)
  | c :: rest => needle.isPrefixOf (c :: rest) || containsSub rest needle

/-- Case-insensitive substring probe: `marker in s.lower()`, with `marker`
written in lower case, exactly as in the dispatch of
`extract_template_response`. -/
def containsCI (s marker : String) : Bool :=
  containsSub (lowerL s.data) marker.data

/-- Index of the first occurrence of `needle`, Python `str.find` without
the `-1` encoding. -/
def firstOcc (hay needle : List Char) : Option Nat :=
  match hay with
  | [] => if needle.isPrefixOf ([] : List Char) then some 0 else Option.none
  | c :: rest =>
      if needle.isPrefixOf (c :: rest) then some 0
      else (firstOcc rest needle).map (· + 1)

/-- The slice `s[s.lower().find(marker):]` used by the tree-parsing
extractors.  When `find` returns `-1` the Python slice `s[-1:]` is the
last character of `s` (empty for the empty string). -/
def pySliceFromCI (s marker : String) : String :=
  match firstOcc (lowerL s.data) marker.data with
  | some i => String.mk (s.data.drop i)
  | Option.none =>
      match s.data with
      | [] => ""
      | cs => String.mk (cs.drop (cs.length - 1))

/-- Python `str.strip()`. -/
def pyStrip (s : String) : String :=
  String.mk (((s.data.dropWhile pyIsSpace).reverse.dropWhile pyIsSpace).reverse)

/-- Index of the first `>` character. -/
def firstGt (cs : List Char) : Option Nat :=
  match cs with
  | [] => Option.none
  | c :: rest => if c = '>' then some 0 else (firstGt rest).map (· + 1)

/-- One pass of `re.sub(r'<[^>]+>', '', text)`: at each `<`, if a later
`>` exists with at least one character in between, the whole tag is
removed, otherwise the `<` is kept.  Fuel-based so that the kernel can
evaluate it; the fuel argument strictly exceeds the input length, and
every step consumes at least one character. -/
def stripTagsF (fuel : Nat) (cs : List Char) : List Char :=
  match fuel, cs with
  | 0, rest => rest
  | _ + 1, [] => []
  | fuel + 1, '<' :: rest =>
      match firstGt rest with
      | some j => if 1 ≤ j then stripTagsF fuel (rest.drop (j + 1))
                  else '<' :: stripTagsF fuel rest
      | Option.none => '<' :: stripTagsF fuel rest
  | fuel + 1, c :: rest => c :: stripTagsF fuel rest

/-- `re.sub(r'\s+', ' ', text)`: each maximal whitespace run becomes a
single space.  The flag records whether the previous character was
whitespace. -/
def collapseWsAux (prevSp : Bool) (cs : List Char) : List Char :=
  match cs with
  | [] => []
  | c :: rest =>
      if pyIsSpace c then
        if prevSp then collapseWsAux true rest
        else ' ' :: collapseWsAux true rest
      else c :: collapseWsAux false rest

/-- `clean_template_tags` from the source: remove all `<[^>]+>` tags,
collapse whitespace runs to single spaces, then strip. -/
def clean_template_tags (s : String) : String :=
  pyStrip (String.mk (collapseWsAux false (stripTagsF (s.data.length + 1) s.data)))

example : clean_template_tags "<a>hello   <b/>world</a>" = "hello world" := by rfl
example : clean_template_tags "" = "" := by rfl
example : clean_template_tags "a <> b" = "a <> b" := by rfl
example : containsCI "xx<ANSWER>y" "<answer>" = true := by rfl
example : pySliceFromCI "ab<REC>c" "<rec>" = "<REC>c" := by rfl
example : pySliceFromCI "abc" "<rec>" = "c" := by rfl

/-! ## The `re` fragment used by the source

The source builds five fixed patterns, all compiled with
`re.IGNORECASE | re.DOTALL`: alternating literals, `\s*` gaps, lazy
`(.*?)` captures, and `(?: ... )?` optional groups.  A pattern is a
sequence of such items; `RItems` is a mutually inductive list so that
every function below is a structural recursion the kernel can run. -/

mutual
inductive RItem where
  | lit (l : String)
  | ws
  | capture
  | opt (sub : RItems)
inductive RItems where
  | rnil
  | rcons (head : RItem) (tail : RItems)
end

/-- Build an `RItems` sequence from a list. -/
def ritems : List RItem → RItems
  | [] => .rnil
  | x :: r => .rcons x (ritems r)

/-- Concatenation of pattern sequences. -/
def rappend : RItems → RItems → RItems
  | .rnil, ys => ys
  | .rcons x xs, ys => .rcons x (rappend xs ys)

mutual
/-- Size of one pattern item; bounds the matcher recursion depth. -/
def weight1 : RItem → Nat
  | .opt sub => 1 + weightsL sub
  | _ => 1
/-- Size of a pattern sequence. -/
def weightsL : RItems → Nat
  | .rnil => 0
  | .rcons h t => weight1 h + weightsL t
end

mutual
/-- Number of capture groups inside one item. -/
def caps1 : RItem → Nat
  | .capture => 1
  | .opt sub => capsL sub
  | _ => 0
/-- Number of capture groups in a sequence. -/
def capsL : RItems → Nat
  | .rnil => 0
  | .rcons h t => caps1 h + capsL t
end

/-- Case-insensitive literal prefix test. -/
def startsWithCI (l : String) (s : List Char) : Bool :=
  l.data.isPrefixOf (lowerL s)

/-- Backtracking matcher for the pattern fragment, anchored at the start
of `s` but allowing trailing input (as `re.search` does).  Returns the
capture-group values in pattern order on success.  Choice ordering
mirrors the engine: lazy captures try the shortest extent first, `\s*`
is greedy, optional groups try the present branch first.  The fuel
strictly exceeds `weightsL items`, which bounds the recursion depth. -/
def matchItemsF : Nat → RItems → List Char → Option (List (Option String))
  | 0, _, _ => Option.none
  | _ + 1, .rnil, _ => some []
  | fuel + 1, .rcons (.lit l) rest, s =>
      if startsWithCI l s then matchItemsF fuel rest (s.drop l.data.length)
      else Option.none
  | fuel + 1, .rcons .ws rest, s =>
      ((List.range ((s.takeWhile pyIsSpace).length + 1)).reverse).findSome?
        (fun k => matchItemsF fuel rest (s.drop k))
  | fuel + 1, .rcons .capture rest, s =>
      (List.range (s.length + 1)).findSome?
        (fun k => (matchItemsF fuel rest (s.drop k)).map
          (fun gs => some (String.mk (s.take k)) :: gs))
  | fuel + 1, .rcons (.opt sub) rest, s =>
      match matchItemsF fuel (rappend sub rest) s with
      | some gs => some gs
      | Option.none =>
          (matchItemsF fuel rest s).map
            (fun gs => List.replicate (capsL sub) (Option.none : Option String) ++ gs)

/-- Match a pattern at the start of `s`. -/
def matchItems (p : RItems) (s : List Char) : Option (List (Option String)) :=
  matchItemsF (weightsL p + 1) p s

/-- `re.search`: the leftmost start position at which the pattern
matches. -/
def research (p : RItems) (s : String) : Option (List (Option String)) :=
  (List.range (s.data.length + 1)).findSome? (fun i => matchItems p (s.data.drop i))

/-- `match.group(k)` (1-based); `Option.none` when the group did not
participate in the match. -/
def pyGroup (m : List (Option String)) (k : Nat) : Option String :=
  (m.get? (k - 1)).join

/-- `r'<SUMMARY>(.*?)</SUMMARY>'` -/
def summaryPat : RItems := ritems [.lit "<summary>", .capture, .lit "</summary>"]

/-- `r'<RECOMMENDATION>(.*?)</RECOMMENDATION>'` -/
def recommendationPat : RItems :=
  ritems [.lit "<recommendation>", .capture, .lit "</recommendation>"]

/-- `r'<ANSWER>(.*?)</ANSWER>'` -/
def answerPat : RItems := ritems [.lit "<answer>", .capture, .lit "</answer>"]

/-- `r'<RESPONSE>(.*?)</RESPONSE>'` -/
def responsePat : RItems := ritems [.lit "<response>", .capture, .lit "</response>"]

/-- `r'<insufficient_data>(.*?)</insufficient_data>'` -/
def insufficientPat : RItems :=
  ritems [.lit "<insufficient_data>", .capture, .lit "</insufficient_data>"]

/-- The per-vendor pattern of `extract_comparison_template`:
`<VENDOR{i}>\s*<NAME>(.*?)</NAME>\s*<PERFORMANCE>(.*?)</PERFORMANCE>\s*`
`(?:<STRENGTHS>(.*?)</STRENGTHS>)?\s*(?:<CONCERNS>(.*?)</CONCERNS>)?\s*</VENDOR{i}>`. -/
def vendorPat (i : Nat) : RItems :=
  ritems [.lit ("<vendor" ++ toString i ++ ">"), .ws,
    .lit "<name>", .capture, .lit "</name>", .ws,
    .lit "<performance>", .capture, .lit "</performance>", .ws,
    .opt (ritems [.lit "<strengths>", .capture, .lit "</strengths>"]), .ws,
    .opt (ritems [.lit "<concerns>", .capture, .lit "</concerns>"]), .ws,
    .lit ("</vendor" ++ toString i ++ ">")]

example : research answerPat "ab<ANSWER> hi </ANSWER>c" = some [some " hi "] := by rfl
example : research answerPat "<answer>x" = Option.none := by rfl
example :
    research (vendorPat 1) "<VENDOR1><NAME>A</NAME><PERFORMANCE>B</PERFORMANCE></VENDOR1>" =
      some [some "A", some "B", Option.none, Option.none] := by rfl

/-! ## The ElementTree fragment used by the source

`ET.fromstring` is modelled for documents made of nested tag pairs,
self-closing tags and character data.  An element keeps its tag, the
text between its start tag and its first child (`None` when that text
is empty, as in ElementTree) and its children; tail text is parsed but
discarded since the source never reads it.  Tag matching on close tags
is case-sensitive, mismatched or unterminated tags fail, and non-space
junk after the root element fails, all as in ElementTree. -/

inductive XNode where
  | mk (tag : String) (text : Option String) (children : List XNode)

/-- Element tag. -/
def XNode.tag : XNode → String
  | .mk t _ _ => t

/-- `element.text`: text before the first child, `None` when empty. -/
def XNode.text : XNode → Option String
  | .mk _ t _ => t

/-- Child elements in document order. -/
def XNode.children : XNode → List XNode
  | .mk _ _ c => c

/-- Parse an XML name (must start with a letter or underscore). -/
def parseNm (cs : List Char) : Option (String × List Char) :=
  match cs with
  | c :: _ =>
      if c.isAlpha || c = '_' then
        some (String.mk (cs.takeWhile (fun d => d.isAlphanum || d = '_' || d = '-' || d = '.' || d = ':')),
          cs.dropWhile (fun d => d.isAlphanum || d = '_' || d = '-' || d = '.' || d = ':'))
      else Option.none
  | [] => Option.none

/-- Scan from just after a tag name to the closing `>`, skipping any
attribute text; reports whether the tag is self-closing.  A `<` before
the `>` is malformed. -/
def scanTagEnd : List Char → Option (Bool × List Char)
  | [] => Option.none
  | '>' :: r => some (false, r)
  | '/' :: '>' :: r => some (true, r)
  | '<' :: _ => Option.none
  | _ :: r => scanTagEnd r

mutual
/-- Parse one element starting at `<`.  Fuel decreases on every call;
the initial fuel in `parseXml` exceeds any possible call-chain length. -/
def parseElemF : Nat → List Char → Option (XNode × List Char)
  | 0, _ => Option.none
  | fuel + 1, s =>
      match s with
      | '<' :: rest =>
          match parseNm rest with
          | Option.none => Option.none
          | some (nm, r1) =>
              match scanTagEnd r1 with
              | Option.none => Option.none
              | some (true, r2) => some (.mk nm Option.none [], r2)
              | some (false, r2) =>
                  let t0 := r2.takeWhile (· ≠ '<')
                  parseKidsF fuel nm
                    (if t0.isEmpty then Option.none else some (String.mk t0))
                    [] (r2.dropWhile (· ≠ '<'))
      | _ => Option.none

/-- Parse the children of an open element until its matching close tag. -/
def parseKidsF : Nat → String → Option String → List XNode → List Char →
    Option (XNode × List Char)
  | 0, _, _, _, _ => Option.none
  | fuel + 1, tag, text, acc, s =>
      match s with
      | '<' :: '/' :: r =>
          match parseNm r with
          | Option.none => Option.none
          | some (nm2, r2) =>
              match r2.dropWhile pyIsSpace with
              | '>' :: r4 =>
                  if nm2 = tag then some (.mk tag text acc.reverse, r4) else Option.none
              | _ => Option.none
      | '<' :: _ =>
          match parseElemF fuel s with
          | Option.none => Option.none
          | some (child, r) =>
              parseKidsF fuel tag text (child :: acc) (r.dropWhile (· ≠ '<'))
      | _ => Option.none
end

/-- `ET.fromstring`: leading whitespace, one root element, then at most
whitespace; anything else is a parse error (`Option.none`). -/
def parseXml (s : String) : Option XNode :=
  let cs := s.data.dropWhile pyIsSpace
  match parseElemF (2 * cs.length + 8) cs with
  | some (node, rest) =>
      if (rest.dropWhile pyIsSpace).isEmpty then some node else Option.none
  | Option.none => Option.none

/-- `element.findall(tag)` for a plain tag: direct children with that
tag, in document order (case-sensitive, as in ElementTree). -/
def childrenTagged (n : XNode) (tag : String) : List XNode :=
  n.children.filter (fun c => c.tag == tag)

/-- `element.findtext(tag)` with default `None`: `None` when no child
matches, otherwise the text of the first match with `None` read as the
empty string (`elem.text or ""`). -/
def findtextOpt (n : XNode) (tag : String) : Option String :=
  match childrenTagged n tag with
  | [] => Option.none
  | c :: _ => some (c.text.getD "")

/-- `element.findtext(tag, default)`. -/
def findtextD (n : XNode) (tag dfl : String) : String :=
  (findtextOpt n tag).getD dfl

/-- `root.findall("a/b")`: grandchildren reached through an `a` child. -/
def findallPath (n : XNode) (t1 t2 : String) : List XNode :=
  (childrenTagged n t1).flatMap (fun c => childrenTagged c t2)

example :
    parseXml "<a> <b>x</b>tail<c/></a>" =
      some (.mk "a" (some " ") [.mk "b" (some "x") [], .mk "c" Option.none []]) := by rfl
example : parseXml "<a><b></a>" = Option.none := by rfl
example : parseXml "<a></a>junk" = Option.none := by rfl
example : parseXml "<a></a>  " = some (.mk "a" Option.none []) := by rfl
example : parseXml "<a>" = Option.none := by rfl

/-! ## Python response values

`extract_text_from_response` receives `None`, strings, dicts or other
values; the model covers `None`, `str`, `int` (the falsy/other example
the source cares about) and `dict` with insertion-ordered fields.  The
mutually inductive field list keeps every recursion structural. -/

mutual
inductive PyVal where
  | pynone
  | pystr (s : String)
  | pyint (n : Int)
  | pydict (fields : PyFields)
inductive PyFields where
  | fnil
  | fcons (key : String) (val : PyVal) (rest : PyFields)
end

/-- Python truthiness of the modelled values. -/
def pyTruthy : PyVal → Bool
  | .pynone => false
  | .pystr s => !s.isEmpty
  | .pyint n => n != 0
  | .pydict .fnil => false
  | .pydict (.fcons _ _ _) => true

/-- Dict lookup, `response[field]` guarded by `field in response`. -/
def pyDictGet : PyFields → String → Option PyVal
  | .fnil, _ => Option.none
  | .fcons key v rest, k => if key = k then some v else pyDictGet rest k

/-- Python `repr` of a string for strings without characters that need
numeric escapes: single quotes unless the text holds a single quote and
no double quote, with backslash, newline, carriage return, tab and the
chosen quote escaped. -/
def pyReprStr (s : String) : String :=
  let sq : Char := Char.ofNat 39
  let dq : Char := Char.ofNat 34
  let bs : Char := Char.ofNat 92
  let q : Char := if s.data.contains sq && !(s.data.contains dq) then dq else sq
  let esc : Char → String := fun c =>
    if c = bs then String.mk [bs, bs]
    else if c = Char.ofNat 10 then String.mk [bs, 'n']
    else if c = Char.ofNat 13 then String.mk [bs, 'r']
    else if c = Char.ofNat 9 then String.mk [bs, 't']
    else if c = q then String.mk [bs, c]
    else String.mk [c]
  String.mk [q] ++ String.join (s.data.map esc) ++ String.mk [q]

mutual
/-- Python `repr` of a modelled value. -/
def pyRepr : PyVal → String
  | .pynone => "None"
  | .pystr s => pyReprStr s
  | .pyint n => toString n
  | .pydict fs => "\x7b" ++ pyReprFields fs ++ "\x7d"
/-- Comma-separated `key: value` items of a dict repr. -/
def pyReprFields : PyFields → String
  | .fnil => ""
  | .fcons k v .fnil => pyReprStr k ++ ": " ++ pyRepr v
  | .fcons k v (.fcons k2 v2 rest) =>
      pyReprStr k ++ ": " ++ pyRepr v ++ ", " ++ pyReprFields (.fcons k2 v2 rest)
end

/-- Python `str` of a modelled value (`str` of a dict is its repr). -/
def pyStr : PyVal → String
  | .pystr s => s
  | v => pyRepr v

mutual
/-- Nesting depth of a value: number of nested dict levels. -/
def pyDepth : PyVal → Nat
  | .pydict fs => 1 + fieldsDepth fs
  | _ => 0
/-- Maximal nesting depth among the values of a field list. -/
def fieldsDepth : PyFields → Nat
  | .fnil => 0
  | .fcons _ v rest => max (pyDepth v) (fieldsDepth rest)
end

/-- The fixed preference order of `extract_text_from_response`. -/
def prefKeys : List String := ["answer", "text", "content", "response", "result"]

/-- The dict loop of `extract_text_from_response`: the value of the
first preference key that is present and truthy. -/
def firstPref (keys : List String) (fields : PyFields) : Option PyVal :=
  keys.findSome? (fun k =>
    match pyDictGet fields k with
    | some v => if pyTruthy v then some v else Option.none
    | Option.none => Option.none)

example :
    firstPref prefKeys (.fcons "answer" (.pystr "") (.fcons "text" (.pystr "hi") .fnil)) =
      some (.pystr "hi") := by rfl

/-! ## The extractors of `template_utils.py` -/

/-- Exceptions that can escape the module.  `except (ET.ParseError,
ValueError)` is modelled by the `Option.none` branch of `parseXml`;
the only uncaught exception the module can raise is the
`AttributeError` of `None.strip()`. -/
inductive PyExc where
  | attributeError
deriving DecidableEq

/-- One formatted recommendation,
`f"{i}. {action} (Priority: {priority})\n   Justification: {justification}"`
with the `findtext` defaults of the source. -/
def formatRec (i : Nat) (rec : XNode) : String :=
  toString i ++ ". " ++ findtextD rec "action" "N/A" ++ " (Priority: " ++
    findtextD rec "priority" "Medium" ++ ")\n   Justification: " ++
    findtextD rec "justification" "N/A"

/-- `extract_recommendations_template`: slice from the (lowercased)
recommendations marker, tree-parse, format each `recommendation` child;
parse failure falls back to `clean_template_tags`. -/
def extract_recommendations_template (s : String) : String :=
  match parseXml (pySliceFromCI s "<recommendations>") with
  | Option.none => clean_template_tags s
  | some root =>
      match childrenTagged root "recommendation" with
      | [] => "No recommendations provided."
      | r0 :: rs =>
          match (r0 :: rs).enum.map (fun p => formatRec (p.1 + 1) p.2) with
          | [] => "No actionable recommendations found in the response."
          | f0 :: fs =>
              "Strategic Recommendations:\n\n" ++ String.intercalate "\n\n" (f0 :: fs)

/-- `match.group(3).strip() if match.group(3) else "Not specified"`. -/
def strengthsOf (g : Option String) : String :=
  match g with
  | some t => if t.isEmpty then "Not specified" else pyStrip t
  | Option.none => "Not specified"

/-- `match.group(4).strip() if match.group(4) else "None identified"`. -/
def concernsOf (g : Option String) : String :=
  match g with
  | some t => if t.isEmpty then "None identified" else pyStrip t
  | Option.none => "None identified"

/-- `re.search` of the indexed vendor pattern. -/
def vendorGroups (i : Nat) (s : String) : Option (List (Option String)) :=
  research (vendorPat i) s

/-- The lines the `for i in range(1, 11)` vendor loop appends. -/
def vendorLines (s : String) : List String :=
  (List.range' 1 10).flatMap (fun i =>
    match vendorGroups i s with
    | some m =>
        ["**" ++ pyStrip ((pyGroup m 1).getD "") ++ "**",
         "Performance: " ++ pyStrip ((pyGroup m 2).getD ""),
         "Strengths: " ++ strengthsOf (pyGroup m 3),
         "Concerns: " ++ concernsOf (pyGroup m 4) ++ "\n"]
    | Option.none => [])

/-- Number of vendor indices in `1..10` whose pattern matches. -/
def vendorCount (s : String) : Nat :=
  ((List.range' 1 10).filter (fun i => (vendorGroups i s).isSome)).length

/-- `extract_comparison_template`: optional summary, up to ten vendor
blocks, optional recommendation; an empty result falls back to
`clean_template_tags`. -/
def extract_comparison_template (s : String) : String :=
  let sumLines :=
    match research summaryPat s with
    | some m => ["Summary: " ++ pyStrip ((pyGroup m 1).getD "") ++ "\n"]
    | Option.none => []
  let recLines :=
    match research recommendationPat s with
    | some m => ["Recommendation: " ++ pyStrip ((pyGroup m 1).getD "")]
    | Option.none => []
  match sumLines ++ vendorLines s ++ recLines with
  | [] => clean_template_tags s
  | r0 :: rs => String.intercalate "\n" (r0 :: rs)

/-- `f.text.strip()`: raises `AttributeError` when the element text is
`None` (the source catches only `ET.ParseError` and `ValueError`). -/
def textStrip (f : XNode) : Except PyExc String :=
  match f.text with
  | some t => .ok (pyStrip t)
  | Option.none => .error .attributeError

/-- `extract_statistical_template`: slice from the marker, tree-parse,
then assemble summary, findings, business impact and recommendations in
statement order.  Parse failure falls back to `clean_template_tags`;
the `AttributeError` of `None.strip()` inside the findings and
recommendations loops is not caught and escapes. -/
def extract_statistical_template (s : String) : Except PyExc String :=
  match parseXml (pySliceFromCI s "<statistical_analysis>") with
  | Option.none => .ok (clean_template_tags s)
  | some root => do
      let sumLines : List String :=
        match findtextOpt root "summary" with
        | some t => if t.isEmpty then [] else ["Summary: " ++ pyStrip t ++ "\n"]
        | Option.none => []
      let findLines : List String ←
        match findallPath root "findings" "finding" with
        | [] => pure []
        | f0 :: fs => do
            let texts ← (f0 :: fs).mapM textStrip
            pure ("Key Findings:" ::
              (texts.enum.map (fun p => toString (p.1 + 1) ++ ". " ++ p.2) ++ [""]))
      let biLines : List String :=
        match findtextOpt root "business_impact" with
        | some t => if t.isEmpty then [] else ["Business Impact: " ++ pyStrip t ++ "\n"]
        | Option.none => []
      let recLines : List String ←
        match findallPath root "recommendations" "recommendation" with
        | [] => pure []
        | r0 :: rs => do
            let texts ← (r0 :: rs).mapM textStrip
            pure ("Recommendations:" :: texts.map (fun t => "- " ++ t))
      match sumLines ++ findLines ++ biLines ++ recLines with
      | [] => pure "Could not extract statistical analysis from the response."
      | r0 :: rs => pure (String.intercalate "\n" (r0 :: rs))

/-- `extract_synthesis_template`: first `<ANSWER>` capture, else first
`<RESPONSE>` capture, else tag-stripping. -/
def extract_synthesis_template (s : String) : String :=
  match research answerPat s with
  | some m => pyStrip ((pyGroup m 1).getD "")
  | Option.none =>
      match research responsePat s with
      | some m => pyStrip ((pyGroup m 1).getD "")
      | Option.none => clean_template_tags s

/-- Lines 68-70 of the source: clean generic tags and return the
cleaned text (the original is returned when cleaning changed nothing,
which is the same string either way). -/
def genericFallback (s : String) : String :=
  let cleaned := clean_template_tags s
  if cleaned ≠ s then cleaned else s

/-- The inline insufficient-data branch: regex extraction of the
enclosed content, falling through to the generic cleaning when the
regex does not match. -/
def extractInsufficientBranch (s : String) : String :=
  match research insufficientPat s with
  | some m => pyStrip ((pyGroup m 1).getD "")
  | Option.none => genericFallback s

/-- Outcome of the ordered case-insensitive marker probes of
`extract_template_response`. -/
inductive Dialect where
  | empty
  | recs
  | compare
  | statistical
  | synthesis
  | insufficient
  | generic
deriving DecidableEq

/-- The dispatch chain of `extract_template_response`: the `not
response_text` guard, then the five substring probes in source order. -/
def templateDialect (s : String) : Dialect :=
  if s = "" then .empty
  else if containsCI s "<recommendations>" then .recs
  else if containsCI s "<comparison_start>" then .compare
  else if containsCI s "<statistical_analysis>" then .statistical
  else if containsCI s "<response_start>" || containsCI s "<answer>" then .synthesis
  else if containsCI s "<insufficient_data>" then .insufficient
  else .generic

/-- `extract_template_response`: dispatch on the first matching marker;
only the statistical extractor can raise, every other branch is total. -/
def extract_template_response (s : String) : Except PyExc String :=
  match templateDialect s with
  | .empty => .ok s
  | .recs => .ok (extract_recommendations_template s)
  | .compare => .ok (extract_comparison_template s)
  | .statistical => extract_statistical_template s
  | .synthesis => .ok (extract_synthesis_template s)
  | .insufficient => .ok (extractInsufficientBranch s)
  | .generic => .ok (genericFallback s)

/-- Recursion body of `extract_text_from_response`.  The recursion of
the source follows the value of the winning preference key; the fuel,
chosen one above the dict-nesting depth in the wrapper, only makes the
recursion structural and is never exhausted
(`etfrGo_fuel` below). -/
def etfrGo : Nat → PyVal → Except PyExc String
  | 0, _ => .ok ""
  | _ + 1, .pynone => .ok ""
  | _ + 1, .pystr s =>
      if s.data.contains '<' && s.data.contains '>' then
        match extract_template_response s with
        | .error e => .error e
        | .ok ex => if !ex.isEmpty && ex != s then .ok ex else .ok s
      else .ok s
  | _ + 1, .pyint n => .ok (pyStr (.pyint n))
  | fuel + 1, .pydict fields =>
      match firstPref prefKeys fields with
      | some v => etfrGo fuel v
      | Option.none => .ok (pyStr (.pydict fields))

/-- `extract_text_from_response`. -/
def extract_text_from_response (r : PyVal) : Except PyExc String :=
  etfrGo (pyDepth r + 1) r

/-- Number of nested recursive calls `extract_text_from_response`
performs below a value (the dict branch is the only self-recursion of
the source). -/
def recDepthGo : Nat → PyVal → Nat
  | 0, _ => 0
  | fuel + 1, .pydict fields =>
      match firstPref prefKeys fields with
      | some v => 1 + recDepthGo fuel v
      | Option.none => 0
  | _ + 1, _ => 0

/-- Recursion depth of `extract_text_from_response` on a value. -/
def recDepth (r : PyVal) : Nat :=
  recDepthGo (pyDepth r + 1) r

/-! ## Helper lemmas -/

theorem findSomeWitness {α β : Type} (l : List α) (f : α → Option β) (b : β)
    (h : l.findSome? f = some b) : ∃ a, a ∈ l ∧ f a = some b := by
  induction l with
  | nil => simp [List.findSome?] at h
  | cons x xs ih =>
      cases hx : f x with
      | some y =>
          simp only [List.findSome?, hx] at h
          exact ⟨x, List.mem_cons_self x xs, hx.trans h⟩
      | none =>
          simp only [List.findSome?, hx] at h
          obtain ⟨a, ha, hfa⟩ := ih h
          exact ⟨a, List.mem_cons_of_mem x ha, hfa⟩

theorem containsSub_of_pref {xs nd : List Char} (h : nd.isPrefixOf xs = true) :
    containsSub xs nd = true := by
  cases xs with
  | nil => simpa [containsSub] using h
  | cons c rest => simp [containsSub, h]

theorem containsSub_tail {xs : List Char} {c : Char} {nd : List Char}
    (h : containsSub xs nd = true) : containsSub (c :: xs) nd = true := by
  simp [containsSub, h]

theorem containsSub_drop {nd : List Char} :
    ∀ (n : Nat) (xs : List Char), containsSub (xs.drop n) nd = true →
      containsSub xs nd = true := by
  intro n
  induction n with
  | zero => intro xs h; simpa using h
  | succ n ih =>
      intro xs h
      cases xs with
      | nil => simpa using h
      | cons x t => exact containsSub_tail (ih t (by simpa using h))

theorem lowerL_drop (cs : List Char) (n : Nat) :
    lowerL (cs.drop n) = (lowerL cs).drop n := by
  induction cs generalizing n with
  | nil => simp [lowerL]
  | cons c t ih =>
      cases n with
      | zero => simp
      | succ n => simp only [List.drop_succ_cons, lowerL, List.map_cons]; exact ih n

/-- A literal required at the top level of a pattern (outside any
optional group). -/
def hasTopLit : RItems → String → Bool
  | .rnil, _ => false
  | .rcons (.lit l2) rest, l => (l2 = l) || hasTopLit rest l
  | .rcons .ws rest, l => hasTopLit rest l
  | .rcons .capture rest, l => hasTopLit rest l
  | .rcons (.opt _) rest, l => hasTopLit rest l

theorem hasTopLit_append : ∀ (sub : RItems) {rest : RItems} {l : String},
    hasTopLit rest l = true → hasTopLit (rappend sub rest) l = true
  | .rnil, _, _, h => by rw [rappend]; exact h
  | .rcons (.lit l2) tl, rest, l, h => by
      simp [rappend, hasTopLit, hasTopLit_append tl h]
  | .rcons .ws tl, rest, l, h => by
      simpa [rappend, hasTopLit] using hasTopLit_append tl h
  | .rcons .capture tl, rest, l, h => by
      simpa [rappend, hasTopLit] using hasTopLit_append tl h
  | .rcons (.opt s2) tl, rest, l, h => by
      simpa [rappend, hasTopLit] using hasTopLit_append tl h

/-- A successful match forces every top-level literal of the pattern to
occur, case-insensitively, in the matched text. -/
theorem matchLit_contains :
    ∀ (fuel : Nat) (items : RItems) (s : List Char) (m : List (Option String)) (l : String),
      matchItemsF fuel items s = some m → hasTopLit items l = true →
      containsSub (lowerL s) l.data = true := by
  intro fuel
  induction fuel with
  | zero => intro items s m l h; simp [matchItemsF] at h
  | succ fuel ih =>
      intro items s m l h hl
      cases items with
      | rnil => simp [hasTopLit] at hl
      | rcons hd rest =>
          cases hd with
          | lit l2 =>
              rw [matchItemsF] at h
              by_cases hp : startsWithCI l2 s = true
              · rw [if_pos hp] at h
                rw [hasTopLit] at hl
                rcases Bool.or_eq_true_iff.mp hl with heq | hrest
                · have : l2 = l := by simpa using heq
                  subst this
                  exact containsSub_of_pref hp
                · have := ih rest (s.drop l2.data.length) m l h hrest
                  rw [lowerL_drop] at this
                  exact containsSub_drop _ _ this
              · rw [if_neg hp] at h; cases h
          | ws =>
              rw [matchItemsF] at h
              obtain ⟨k, _, hk⟩ := findSomeWitness _ _ _ h
              rw [hasTopLit] at hl
              have := ih rest (s.drop k) m l hk hl
              rw [lowerL_drop] at this
              exact containsSub_drop _ _ this
          | capture =>
              rw [matchItemsF] at h
              obtain ⟨k, _, hk⟩ := findSomeWitness _ _ _ h
              cases hmk : matchItemsF fuel rest (s.drop k) with
              | none => rw [hmk] at hk; simp at hk
              | some gs =>
                  rw [hasTopLit] at hl
                  have := ih rest (s.drop k) gs l hmk hl
                  rw [lowerL_drop] at this
                  exact containsSub_drop _ _ this
          | opt sub =>
              rw [matchItemsF] at h
              rw [hasTopLit] at hl
              cases hpres : matchItemsF fuel (rappend sub rest) s with
              | some gs =>
                  rw [hpres] at h
                  exact ih (rappend sub rest) s gs l hpres (hasTopLit_append sub hl)
              | none =>
                  rw [hpres] at h
                  cases habs : matchItemsF fuel rest s with
                  | none => rw [habs] at h; cases h
                  | some gs => exact ih rest s gs l habs hl

theorem research_contains {p : RItems} {s : String} {m : List (Option String)} {l : String}
    (h : research p s = some m) (hl : hasTopLit p l = true) :
    containsCI s l = true := by
  obtain ⟨i, _, hi⟩ := findSomeWitness _ _ _ h
  have := matchLit_contains _ _ _ _ _ hi hl
  rw [lowerL_drop] at this
  exact containsSub_drop _ _ this

theorem depth_get : ∀ (fs : PyFields) (k : String) (v : PyVal),
    pyDictGet fs k = some v → pyDepth v ≤ fieldsDepth fs
  | .fnil, k, v, h => by simp [pyDictGet] at h
  | .fcons key val rest, k, v, h => by
      rw [pyDictGet] at h
      rw [fieldsDepth]
      by_cases he : key = k
      · rw [if_pos he] at h
        injection h with h2
        subst h2
        exact le_max_left _ _
      · rw [if_neg he] at h
        exact le_trans (depth_get rest k v h) (le_max_right _ _)

theorem depth_firstPref {keys : List String} {fs : PyFields} {v : PyVal}
    (h : firstPref keys fs = some v) : pyDepth v ≤ fieldsDepth fs := by
  obtain ⟨k, _, hk⟩ := findSomeWitness _ _ _ h
  cases hg : pyDictGet fs k with
  | none => rw [hg] at hk; cases hk
  | some w =>
      rw [hg] at hk
      have hk2 : (if pyTruthy w = true then some w else Option.none) = some v := hk
      by_cases ht : pyTruthy w = true
      · rw [if_pos ht] at hk2
        injection hk2 with h2
        subst h2
        exact depth_get fs k w hg
      · rw [if_neg ht] at hk2; cases hk2

/-- The fuel of `extract_text_from_response` is irrelevant above the
nesting depth: the recursion of the source is fully reproduced. -/
theorem etfrGo_fuel : ∀ (f1 f2 : Nat) (r : PyVal),
    pyDepth r < f1 → pyDepth r < f2 → etfrGo f1 r = etfrGo f2 r := by
  intro f1
  induction f1 with
  | zero => intro f2 r h1; omega
  | succ f1 ih =>
      intro f2 r h1 h2
      cases f2 with
      | zero => omega
      | succ f2 =>
          cases r with
          | pynone => rfl
          | pystr s => rfl
          | pyint n => rfl
          | pydict fields =>
              rw [etfrGo, etfrGo]
              cases hp : firstPref prefKeys fields with
              | none => rfl
              | some v =>
                  have hd : pyDepth v ≤ fieldsDepth fields := depth_firstPref hp
                  have hdd : pyDepth (.pydict fields) = 1 + fieldsDepth fields := rfl
                  exact ih f2 v (by omega) (by omega)

theorem recDepthGo_le : ∀ (fuel : Nat) (r : PyVal), recDepthGo fuel r ≤ pyDepth r := by
  intro fuel
  induction fuel with
  | zero => intro r; simp [recDepthGo]
  | succ fuel ih =>
      intro r
      cases r with
      | pynone => simp [recDepthGo]
      | pystr s => simp [recDepthGo]
      | pyint n => simp [recDepthGo]
      | pydict fields =>
          rw [recDepthGo]
          cases hp : firstPref prefKeys fields with
          | none => exact Nat.zero_le _
          | some v =>
              show 1 + recDepthGo fuel v ≤ pyDepth (.pydict fields)
              have hd : pyDepth v ≤ fieldsDepth fields := depth_firstPref hp
              have := ih v
              have hdd : pyDepth (.pydict fields) = 1 + fieldsDepth fields := rfl
              omega

/-! ## The claims -/

/-- The well-formed statistical input whose empty `finding` element
makes `f.text.strip()` raise. -/
def emptyFindingInput : String :=
  "<statistical_analysis><findings><finding></finding></findings></statistical_analysis>"

/-- C1: the claim that template extraction never raises is violated by
the code.  A well-formed statistical block containing an empty
`finding` element reaches `f.text.strip()` with `f.text = None`, which
raises an `AttributeError` that the `except (ET.ParseError, ValueError)`
clause does not catch; the exception escapes `extract_template_response`
to the caller. -/
theorem C1_raises_on_empty_finding :
    extract_template_response emptyFindingInput = Except.error PyExc.attributeError
    ∧ ¬ (∀ s : String, ∃ out : String, extract_template_response s = Except.ok out) := by
  refine ⟨by rfl, ?_⟩
  intro hall
  obtain ⟨out, hout⟩ := hall emptyFindingInput
  have h1 : extract_template_response emptyFindingInput =
      Except.error PyExc.attributeError := by rfl
  rw [h1] at hout
  cases hout

/-- C9: a `None` response yields the empty string, not an error and not
the string representation of `None`. -/
theorem C9_none_gives_empty :
    extract_text_from_response PyVal.pynone = Except.ok ""
    ∧ extract_text_from_response PyVal.pynone ≠ Except.ok (pyStr PyVal.pynone) := by
  refine ⟨rfl, ?_⟩
  intro h
  have h2 : (Except.ok "" : Except PyExc String) = Except.ok (pyStr PyVal.pynone) := h
  injection h2 with h3
  exact absurd h3 (by decide)

/-- A response nested six dict levels deep under the first preference
key. -/
def deepResp : PyVal :=
  .pydict (.fcons "answer" (.pydict (.fcons "answer" (.pydict (.fcons "answer"
    (.pydict (.fcons "answer" (.pydict (.fcons "answer" (.pydict (.fcons "answer"
    (.pystr "deep") .fnil)) .fnil)) .fnil)) .fnil)) .fnil)) .fnil)

/-- C3, counterexample: the recursion depth of
`extract_text_from_response` is not bounded by the number of preference
keys.  On a response nested six dict levels deep the function recurses
six times, one more than the five preference keys, while still
terminating with the innermost string. -/
theorem C3_depth_counterexample :
    recDepth deepResp = 6 ∧ prefKeys.length = 5
    ∧ ¬ recDepth deepResp ≤ prefKeys.length
    ∧ extract_text_from_response deepResp = Except.ok "deep" := by
  exact ⟨rfl, rfl, by decide, rfl⟩

/-- C3, amended: `extract_text_from_response` terminates on every
(finite, acyclic) response value, and its recursion depth is bounded by
the dict-nesting depth of the value, not by the number of preference
keys. -/
theorem C3_depth_le_nesting (r : PyVal) : recDepth r ≤ pyDepth r :=
  recDepthGo_le _ r

/-- C7: when the structural markup of a recognized tree dialect is
malformed (the ElementTree parse of the slice fails), the extractor
returns the generic tag-stripping of the input instead of raising. -/
theorem C7_malformed_falls_back (s : String) :
    (parseXml (pySliceFromCI s "<recommendations>") = Option.none →
       extract_recommendations_template s = clean_template_tags s)
    ∧ (parseXml (pySliceFromCI s "<statistical_analysis>") = Option.none →
       extract_statistical_template s = Except.ok (clean_template_tags s)) := by
  constructor
  · intro h; simp [extract_recommendations_template, h]
  · intro h; simp [extract_statistical_template, h]

/-- C7, witness: an unterminated recommendation tag and an unterminated
findings tag both fall back to tag-stripping. -/
theorem C7_malformed_falls_back_witness :
    (parseXml (pySliceFromCI "<recommendations><recommendation>" "<recommendations>") =
        Option.none
      ∧ extract_recommendations_template "<recommendations><recommendation>" =
          clean_template_tags "<recommendations><recommendation>")
    ∧ (parseXml (pySliceFromCI "<statistical_analysis><findings>" "<statistical_analysis>") =
        Option.none
      ∧ extract_statistical_template "<statistical_analysis><findings>" =
          Except.ok (clean_template_tags "<statistical_analysis><findings>")) :=
  ⟨⟨rfl, (C7_malformed_falls_back _).1 rfl⟩, ⟨rfl, (C7_malformed_falls_back _).2 rfl⟩⟩

/-- C6: on already-cleaned plain text without any dialect marker,
extraction is the identity, and applying it twice still returns the
text unchanged. -/
theorem C6_idempotent_on_clean_text (t : String)
    (hclean : clean_template_tags t = t)
    (h1 : containsCI t "<recommendations>" = false)
    (h2 : containsCI t "<comparison_start>" = false)
    (h3 : containsCI t "<statistical_analysis>" = false)
    (h4 : containsCI t "<response_start>" = false)
    (h5 : containsCI t "<answer>" = false)
    (h6 : containsCI t "<insufficient_data>" = false) :
    extract_template_response t = Except.ok t
    ∧ (extract_template_response t).bind extract_template_response = Except.ok t := by
  have hmain : extract_template_response t = Except.ok t := by
    by_cases ht : t = ""
    · subst ht; rfl
    · have hd : templateDialect t = .generic := by
        simp [templateDialect, ht, h1, h2, h3, h4, h5, h6]
      rw [extract_template_response, hd]
      show Except.ok (genericFallback t) = Except.ok t
      simp [genericFallback, hclean]
  refine ⟨hmain, ?_⟩
  rw [hmain]
  show extract_template_response t = Except.ok t
  exact hmain

theorem ne_empty_of_marker {s m : String} (h : containsCI s m = true)
    (hm : containsCI "" m = false) : s ≠ "" := by
  intro he; subst he; rw [h] at hm; cases hm

/-- C4: dispatch follows the fixed priority order of the
case-insensitive substring probes, and the first marker found
determines the single extractor applied. -/
theorem C4_dispatch_priority (s : String) :
    (containsCI s "<recommendations>" = true →
        extract_template_response s = Except.ok (extract_recommendations_template s))
    ∧ (containsCI s "<recommendations>" = false →
       containsCI s "<comparison_start>" = true →
        extract_template_response s = Except.ok (extract_comparison_template s))
    ∧ (containsCI s "<recommendations>" = false →
       containsCI s "<comparison_start>" = false →
       containsCI s "<statistical_analysis>" = true →
        extract_template_response s = extract_statistical_template s)
    ∧ (containsCI s "<recommendations>" = false →
       containsCI s "<comparison_start>" = false →
       containsCI s "<statistical_analysis>" = false →
       (containsCI s "<response_start>" || containsCI s "<answer>") = true →
        extract_template_response s = Except.ok (extract_synthesis_template s))
    ∧ (containsCI s "<recommendations>" = false →
       containsCI s "<comparison_start>" = false →
       containsCI s "<statistical_analysis>" = false →
       (containsCI s "<response_start>" || containsCI s "<answer>") = false →
       containsCI s "<insufficient_data>" = true →
        extract_template_response s = Except.ok (extractInsufficientBranch s))
    ∧ (containsCI s "<recommendations>" = false →
       containsCI s "<comparison_start>" = false →
       containsCI s "<statistical_analysis>" = false →
       (containsCI s "<response_start>" || containsCI s "<answer>") = false →
       containsCI s "<insufficient_data>" = false →
        extract_template_response s = Except.ok (genericFallback s)) := by
  refine ⟨?_, ?_, ?_, ?_, ?_, ?_⟩
  · intro h
    have hne := ne_empty_of_marker h (by decide)
    have hd : templateDialect s = .recs := by simp [templateDialect, hne, h]
    rw [extract_template_response, hd]
  · intro h1 h
    have hne := ne_empty_of_marker h (by decide)
    have hd : templateDialect s = .compare := by simp [templateDialect, hne, h1, h]
    rw [extract_template_response, hd]
  · intro h1 h2 h
    have hne := ne_empty_of_marker h (by decide)
    have hd : templateDialect s = .statistical := by simp [templateDialect, hne, h1, h2, h]
    rw [extract_template_response, hd]
  · intro h1 h2 h3 h
    have hne : s ≠ "" := by
      rcases Bool.or_eq_true_iff.mp h with h0 | h0
      · exact ne_empty_of_marker h0 (by decide)
      · exact ne_empty_of_marker h0 (by decide)
    have hd : templateDialect s = .synthesis := by simp [templateDialect, hne, h1, h2, h3, h]
    rw [extract_template_response, hd]
  · intro h1 h2 h3 h4 h
    have hne := ne_empty_of_marker h (by decide)
    have hd : templateDialect s = .insufficient := by
      simp [templateDialect, hne, h1, h2, h3, h4, h]
    rw [extract_template_response, hd]
  · intro h1 h2 h3 h4 h5
    by_cases hne : s = ""
    · subst hne; rfl
    · have hd : templateDialect s = .generic := by
        simp [templateDialect, hne, h1, h2, h3, h4, h5]
      rw [extract_template_response, hd]

/-- C4, witness: the recommendations, synthesis and generic branches at
concrete inputs. -/
theorem C4_dispatch_priority_witness :
    extract_template_response "<recommendations>ok" =
      Except.ok (extract_recommendations_template "<recommendations>ok")
    ∧ extract_template_response "say <ANSWER>yes</ANSWER>" =
        Except.ok (extract_synthesis_template "say <ANSWER>yes</ANSWER>")
    ∧ extract_template_response "no markers at all" =
        Except.ok (genericFallback "no markers at all") :=
  ⟨(C4_dispatch_priority _).1 (by rfl),
   (C4_dispatch_priority _).2.2.2.1 (by rfl) (by rfl) (by rfl) (by rfl),
   (C4_dispatch_priority _).2.2.2.2.2 (by rfl) (by rfl) (by rfl) (by rfl) (by rfl)⟩

/-- Recommendations block with lower-case element tags. -/
def lowRecInput : String :=
  "<recommendations><recommendation><action>act1</action><justification>just1</justification></recommendation></recommendations>"

/-- The same block with the inner element tags upper-cased (still
well-formed: each close tag matches its open tag). -/
def upRecInput : String :=
  "<recommendations><RECOMMENDATION><ACTION>act1</ACTION><JUSTIFICATION>just1</JUSTIFICATION></RECOMMENDATION></recommendations>"

/-- C2, counterexample: changing only the letter case of the
`<recommendation>` sub-field tags changes the extraction result, so the
documented vocabulary is not recognized case-insensitively everywhere.
`ET.findall("recommendation")` is case-sensitive, so the upper-cased
block parses but yields no recommendation children. -/
theorem C2_case_counterexample :
    lowerL upRecInput.data = lowerL lowRecInput.data
    ∧ extract_template_response lowRecInput =
        Except.ok
          "Strategic Recommendations:\n\n1. act1 (Priority: Medium)\n   Justification: just1"
    ∧ extract_template_response upRecInput = Except.ok "No recommendations provided."
    ∧ extract_template_response lowRecInput ≠ extract_template_response upRecInput := by
  refine ⟨by rfl, by rfl, by rfl, ?_⟩
  intro h
  have e1 : extract_template_response lowRecInput =
      Except.ok
        "Strategic Recommendations:\n\n1. act1 (Priority: Medium)\n   Justification: just1" :=
    by rfl
  have e2 : extract_template_response upRecInput =
      Except.ok "No recommendations provided." := by rfl
  rw [e1, e2] at h
  injection h with h2
  exact absurd h2 (by decide)

theorem str_empty_iff (s : String) : s = "" ↔ s.data = [] := by
  cases s with
  | mk d =>
      constructor
      · intro h; exact congrArg String.data h
      · intro h; subst h; rfl

/-- C2, amended: the dialect markers themselves are probed
case-insensitively — dispatch depends only on the case-folded text —
while the sub-field element tags of the tree-parsed dialects are
case-sensitive (see the counterexample). -/
theorem C2_markers_case_insensitive (s t : String)
    (h : lowerL s.data = lowerL t.data) : templateDialect s = templateDialect t := by
  have hlen : s.data.length = t.data.length := by
    have h2 := congrArg List.length h
    simpa [lowerL] using h2
  have hempty : (s = "") ↔ (t = "") := by
    rw [str_empty_iff, str_empty_iff]
    constructor
    · intro hd
      apply List.length_eq_zero.mp
      rw [← hlen, hd]
      rfl
    · intro hd
      apply List.length_eq_zero.mp
      rw [hlen, hd]
      rfl
  simp only [templateDialect, containsCI, h, hempty]

/-- C2, witness for the amended claim: two case variants of an answer
block dispatch to the same synthesis branch. -/
theorem C2_markers_case_insensitive_witness :
    templateDialect "<Answer>ok</Answer>" = templateDialect "<ANSWER>ok</ANSWER>"
    ∧ templateDialect "<ANSWER>ok</ANSWER>" = Dialect.synthesis :=
  ⟨C2_markers_case_insensitive _ _ (by rfl), by rfl⟩

/-- C5: the comparison extractor probes exactly the indices 1..10, so
at most ten vendor blocks are recognized; a successful vendor match
forces both a NAME and a PERFORMANCE field to occur in the text (they
are mandatory literals of the pattern); and the optional STRENGTHS and
CONCERNS groups default to the documented strings when missing. -/
theorem C5_vendor_blocks (s : String) :
    vendorCount s ≤ 10
    ∧ (∀ (i : Nat) (m : List (Option String)), vendorGroups i s = some m →
        containsCI s "<name>" = true ∧ containsCI s "</name>" = true
        ∧ containsCI s "<performance>" = true ∧ containsCI s "</performance>" = true)
    ∧ strengthsOf Option.none = "Not specified"
    ∧ concernsOf Option.none = "None identified" := by
  refine ⟨?_, ?_, rfl, rfl⟩
  · exact le_trans (List.length_filter_le _ _) (by rfl)
  · intro i m h
    have hn1 : hasTopLit (vendorPat i) "<name>" = true := by
      simp [vendorPat, ritems, hasTopLit]
    have hn2 : hasTopLit (vendorPat i) "</name>" = true := by
      simp [vendorPat, ritems, hasTopLit]
    have hn3 : hasTopLit (vendorPat i) "<performance>" = true := by
      simp [vendorPat, ritems, hasTopLit]
    have hn4 : hasTopLit (vendorPat i) "</performance>" = true := by
      simp [vendorPat, ritems, hasTopLit]
    exact ⟨research_contains h hn1, research_contains h hn2,
      research_contains h hn3, research_contains h hn4⟩

/-- A minimal vendor block with only the mandatory fields. -/
def vendorInput : String :=
  "<VENDOR1><NAME>A</NAME><PERFORMANCE>B</PERFORMANCE></VENDOR1>"

/-- C5, witness: a block with only NAME and PERFORMANCE matches with
both optional groups absent, and the text contains the mandatory
fields. -/
theorem C5_vendor_blocks_witness :
    vendorGroups 1 vendorInput = some [some "A", some "B", Option.none, Option.none]
    ∧ vendorCount vendorInput ≤ 10
    ∧ containsCI vendorInput "</performance>" = true
    ∧ strengthsOf Option.none = "Not specified" :=
  ⟨by rfl, (C5_vendor_blocks vendorInput).1,
   ((C5_vendor_blocks vendorInput).2.1 1 _ (by rfl)).2.2.2,
   (C5_vendor_blocks vendorInput).2.2.1⟩

/-- C8: on a well-formed recommendations input the extractor renders
every parsed recommendation element through `formatRec`; a missing
`priority` child renders as the default `Medium`, and present
action/justification/priority texts are carried through `findtext`
unchanged. -/
theorem C8_recommendation_defaults (s : String) (root rec : XNode) (i : Nat)
    (hparse : parseXml (pySliceFromCI s "<recommendations>") = some root)
    (hmem : rec ∈ childrenTagged root "recommendation") :
    extract_recommendations_template s =
      "Strategic Recommendations:\n\n" ++ String.intercalate "\n\n"
        ((childrenTagged root "recommendation").enum.map (fun p => formatRec (p.1 + 1) p.2))
    ∧ formatRec i rec =
        toString i ++ ". " ++ findtextD rec "action" "N/A" ++ " (Priority: " ++
          findtextD rec "priority" "Medium" ++ ")\n   Justification: " ++
          findtextD rec "justification" "N/A"
    ∧ (childrenTagged rec "priority" = [] → findtextD rec "priority" "Medium" = "Medium")
    ∧ (∀ (pr : XNode) (tl : List XNode) (t : String),
        childrenTagged rec "priority" = pr :: tl → pr.text = some t →
        findtextD rec "priority" "Medium" = t)
    ∧ (∀ (a : XNode) (tl : List XNode) (t : String),
        childrenTagged rec "action" = a :: tl → a.text = some t →
        findtextD rec "action" "N/A" = t)
    ∧ (∀ (j : XNode) (tl : List XNode) (t : String),
        childrenTagged rec "justification" = j :: tl → j.text = some t →
        findtextD rec "justification" "N/A" = t) := by
  refine ⟨?_, rfl, ?_, ?_, ?_, ?_⟩
  · simp only [extract_recommendations_template, hparse]
    cases hrec : childrenTagged root "recommendation" with
    | nil => rw [hrec] at hmem; cases hmem
    | cons r0 rs => rfl
  · intro h; simp [findtextD, findtextOpt, h]
  · intro pr tl t h ht; simp [findtextD, findtextOpt, h, ht]
  · intro a tl t h ht; simp [findtextD, findtextOpt, h, ht]
  · intro j tl t h ht; simp [findtextD, findtextOpt, h, ht]

/-- A one-recommendation block whose only sub-field is an action. -/
def oneRecInput : String :=
  "<recommendations><recommendation><action>A1</action></recommendation></recommendations>"

/-- The parsed recommendation element of `oneRecInput`. -/
def oneRecNode : XNode := .mk "recommendation" Option.none [.mk "action" (some "A1") []]

/-- The parse result of `oneRecInput`. -/
def oneRecRoot : XNode := .mk "recommendations" Option.none [oneRecNode]

/-- C8, witness: the single recommendation without a priority child
renders with `Medium`, and its action text is carried through. -/
theorem C8_recommendation_defaults_witness :
    extract_recommendations_template oneRecInput =
      "Strategic Recommendations:\n\n1. A1 (Priority: Medium)\n   Justification: N/A"
    ∧ findtextD oneRecNode "priority" "Medium" = "Medium"
    ∧ findtextD oneRecNode "action" "N/A" = "A1" := by
  have h := C8_recommendation_defaults oneRecInput oneRecRoot oneRecNode 1
    (by rfl) (List.Mem.head _)
  exact ⟨h.1.trans (by rfl), h.2.2.1 rfl,
    h.2.2.2.2.1 (.mk "action" (some "A1") []) [] "A1" rfl rfl⟩

/-- C10: on a keyed record, a preference key that is absent or holds a
falsy value is skipped in favour of the next key of the fixed order
`answer, text, content, response, result`; the first present truthy
value is extracted recursively; and when no preference key holds a
truthy value the string representation of the whole record is
returned. -/
theorem C10_dict_preferences :
    prefKeys = ["answer", "text", "content", "response", "result"]
    ∧ (∀ (k : String) (ks : List String) (fields : PyFields),
        pyDictGet fields k = Option.none →
        firstPref (k :: ks) fields = firstPref ks fields)
    ∧ (∀ (k : String) (ks : List String) (fields : PyFields) (v : PyVal),
        pyDictGet fields k = some v → pyTruthy v = false →
        firstPref (k :: ks) fields = firstPref ks fields)
    ∧ (∀ (fields : PyFields) (v : PyVal), firstPref prefKeys fields = some v →
        extract_text_from_response (PyVal.pydict fields) = extract_text_from_response v)
    ∧ (∀ fields : PyFields, firstPref prefKeys fields = Option.none →
        extract_text_from_response (PyVal.pydict fields) =
          Except.ok (pyStr (PyVal.pydict fields))) := by
  refine ⟨rfl, ?_, ?_, ?_, ?_⟩
  · intro k ks fields h; simp [firstPref, List.findSome?, h]
  · intro k ks fields v h ht; simp [firstPref, List.findSome?, h, ht]
  · intro fields v h
    rw [extract_text_from_response, extract_text_from_response]
    rw [etfrGo]
    rw [h]
    have hd : pyDepth v ≤ fieldsDepth fields := depth_firstPref h
    have hdd : pyDepth (PyVal.pydict fields) = 1 + fieldsDepth fields := rfl
    exact etfrGo_fuel _ _ v (by omega) (by omega)
  · intro fields h
    rw [extract_text_from_response, etfrGo, h]

/-- C10, witness: an empty-string `answer` is skipped in favour of
`text`, and a record with no preference key falls back to its string
representation. -/
theorem C10_dict_preferences_witness :
    pyDictGet (.fcons "answer" (.pystr "") (.fcons "text" (.pystr "hi") .fnil)) "answer" =
      some (.pystr "")
    ∧ pyTruthy (.pystr "") = false
    ∧ firstPref prefKeys (.fcons "answer" (.pystr "") (.fcons "text" (.pystr "hi") .fnil)) =
        some (.pystr "hi")
    ∧ extract_text_from_response
        (PyVal.pydict (.fcons "answer" (.pystr "") (.fcons "text" (.pystr "hi") .fnil))) =
        extract_text_from_response (PyVal.pystr "hi")
    ∧ firstPref ("answer" :: ["text", "content", "response", "result"])
        (.fcons "other" (.pystr "x") .fnil) =
        firstPref ["text", "content", "response", "result"] (.fcons "other" (.pystr "x") .fnil)
    ∧ extract_text_from_response (PyVal.pydict (.fcons "other" (.pystr "x") .fnil)) =
        Except.ok (pyStr (PyVal.pydict (.fcons "other" (.pystr "x") .fnil))) :=
  ⟨rfl, rfl, rfl,
   C10_dict_preferences.2.2.2.1 _ (.pystr "hi") rfl,
   C10_dict_preferences.2.1 "answer" _ _ rfl,
   C10_dict_preferences.2.2.2.2 _ rfl⟩

/-- C6, witness: plain cleaned text passes through unchanged, twice. -/
theorem C6_idempotent_on_clean_text_witness :
    clean_template_tags "hello world" = "hello world"
    ∧ extract_template_response "hello world" = Except.ok "hello world"
    ∧ (extract_template_response "hello world").bind extract_template_response =
        Except.ok "hello world" := by
  have h := C6_idempotent_on_clean_text "hello world" rfl rfl rfl rfl rfl rfl rfl
  exact ⟨rfl, h.1, h.2⟩
